import Mathlib

/-!
Verification development for the invoiceSender repository
(`invoiceParsers.py` and `invoiceSender.py`).

The Python functions are shallowly embedded as executable Lean
functions.  Text is modelled as `List Char`; the regular expressions
of the source are hand-compiled into deterministic matchers that
reproduce the leftmost-search semantics of `re.search` for the three
concrete patterns (their character classes are disjoint in a way that
makes backtracking resolvable; this is spelled out at each matcher).
Python's `\s` and `str.strip` are modelled over the ASCII whitespace
characters, which covers all whitespace actually produced by the
program's inputs of interest.
-/

namespace InvoiceSender

instance {ε α : Type} [DecidableEq ε] [DecidableEq α] : DecidableEq (Except ε α) := fun x y =>
  match x, y with
  | .error a, .error b =>
    if h : a = b then .isTrue (by rw [h]) else .isFalse (by simp [h])
  | .ok a, .ok b =>
    if h : a = b then .isTrue (by rw [h]) else .isFalse (by simp [h])
  | .error _, .ok _ => .isFalse (by simp)
  | .ok _, .error _ => .isFalse (by simp)

/-- ASCII fragment of Python's whitespace class `\s` (and of the
default `str.strip` character set). -/
def isPySpace (c : Char) : Bool :=
  c = ' ' || c = '\t' || c = '\n' || c = '\r' || c = '\x0b' || c = '\x0c'

/-- The character class `[A-Z0-9\-]` of the order-number pattern. -/
def isOrderChar (c : Char) : Bool :=
  ('A' ≤ c && c ≤ 'Z') || c.isDigit || c = '-'

/-- The character class `[\d\s\.,]` of the total-amount pattern
(ASCII fragment). -/
def isAmtChar (c : Char) : Bool :=
  c.isDigit || isPySpace c || c = '.' || c = ','

/-- Strip an expected literal prefix from the input, character by
character; `none` when the input does not start with the pattern. -/
def stripPrefixCl : List Char → List Char → Option (List Char)
  | [], cs => some cs
  | _ :: _, [] => none
  | p :: ps, c :: cs => if c = p then stripPrefixCl ps cs else none

/-- Remove the longest suffix of elements satisfying `p`. -/
def dropRightWhile (p : Char → Bool) (l : List Char) : List Char :=
  (l.reverse.dropWhile p).reverse

/-- Python `str.strip()` (ASCII whitespace). -/
def pyStrip (l : List Char) : List Char :=
  dropRightWhile isPySpace (l.dropWhile isPySpace)

/-- Python `str.replace("\n", " ")`: each newline character becomes one
space. -/
def pyReplaceNl (l : List Char) : List Char :=
  l.map (fun c => if c = '\n' then ' ' else c)

/-! ### The three regex searches of `DougsInvoiceParser.extract_info`
(src/invoiceParsers.py, lines 24-38) -/

/-- Try the pattern `Facture n°\s*([0-9]{4}-[0-9]{2}-FAC\s*\d+)` at the
start of the input and return the captured group.  After the literal
label the greedy `\s*` is deterministic because no whitespace character
is a digit; likewise for the `\s*` before the final greedy `\d+`. -/
def matchInvAt (cs : List Char) : Option (List Char) :=
  match stripPrefixCl "Facture n°".toList cs with
  | none => none
  | some r =>
    match r.dropWhile isPySpace with
    | a1 :: a2 :: a3 :: a4 :: h1 :: b1 :: b2 :: h2 :: k1 :: k2 :: k3 :: rest =>
      if a1.isDigit && a2.isDigit && a3.isDigit && a4.isDigit && h1 = '-' &&
         b1.isDigit && b2.isDigit && h2 = '-' && k1 = 'F' && k2 = 'A' && k3 = 'C' then
        let ws := rest.takeWhile isPySpace
        let ds := (rest.dropWhile isPySpace).takeWhile Char.isDigit
        if ds.isEmpty then none
        else some ([a1, a2, a3, a4, h1, b1, b2, h2, k1, k2, k3] ++ ws ++ ds)
      else none
    | _ => none

/-- `re.search` with the invoice-number pattern: try every start
position from the left and return the first capture. -/
def searchInv : List Char → Option (List Char)
  | [] => matchInvAt []
  | c :: cs =>
    match matchInvAt (c :: cs) with
    | some g => some g
    | none => searchInv cs

/-- Try `Commande\s+([A-Z0-9\-]+)` at the start of the input.  `\s+`
followed by the class `[A-Z0-9\-]` is deterministic (the classes are
disjoint). -/
def matchOrderAt (cs : List Char) : Option (List Char) :=
  match stripPrefixCl "Commande".toList cs with
  | none => none
  | some r =>
    if (r.takeWhile isPySpace).isEmpty then none
    else
      let tok := (r.dropWhile isPySpace).takeWhile isOrderChar
      if tok.isEmpty then none else some tok

/-- `re.search` with the order-number pattern. -/
def searchOrder : List Char → Option (List Char)
  | [] => matchOrderAt []
  | c :: cs =>
    match matchOrderAt (c :: cs) with
    | some g => some g
    | none => searchOrder cs

/-- Match the tail `\s*([\d\s\.,]+)\s*€` of the total pattern against
the input.  Because `\s` is contained in the bracket class and `€` is
outside it, Python's backtracking resolves as follows: past the maximal
whitespace prefix, the group captures the maximal run of class
characters, which must be followed directly by `€`; when that run is
empty, the only remaining possibility is a group made of the last
whitespace character, with `€` immediately after the whitespace. -/
def matchAmt (r : List Char) : Option (List Char) :=
  let s := r.takeWhile isPySpace
  let r1 := r.dropWhile isPySpace
  let run := r1.takeWhile isAmtChar
  let rest := r1.dropWhile isAmtChar
  if run.isEmpty then
    match r1 with
    | '€' :: _ =>
      match s.reverse with
      | [] => none
      | w :: _ => some [w]
    | _ => none
  else
    match rest with
    | '€' :: _ => some run
    | _ => none

/-- Try `Total TTC\s*(?:à régler)?\s*([\d\s\.,]+)\s*€` at the start of
the input.  The optional literal `à régler` can only sit directly after
the maximal whitespace run (its first character is not whitespace), and
when it is absent the two `\s*` fuse, so `matchAmt` is applied to the
text right after `Total TTC`. -/
def matchTotalAt (cs : List Char) : Option (List Char) :=
  match stripPrefixCl "Total TTC".toList cs with
  | none => none
  | some r0 =>
    match stripPrefixCl "à régler".toList (r0.dropWhile isPySpace) with
    | some r => matchAmt r
    | none => matchAmt r0

/-- `re.search` with the total-amount pattern. -/
def searchTotal : List Char → Option (List Char)
  | [] => matchTotalAt []
  | c :: cs =>
    match matchTotalAt (c :: cs) with
    | some g => some g
    | none => searchTotal cs

/-- The dictionary returned by `DougsInvoiceParser.extract_info`. -/
structure InvoiceInfo where
  invoice_number : String
  order_number : String
  total_ttc : String
deriving DecidableEq, Repr

/-- The three `ValueError`s of `DougsInvoiceParser.extract_info`:
"Invoice number not found.", "Order number not found.",
"Total TTC not found.". -/
inductive ParseError where
  | invoiceNotFound
  | orderNotFound
  | totalNotFound
deriving DecidableEq, Repr

/-- `DougsInvoiceParser.extract_info` (src/invoiceParsers.py,
lines 22-45): three `re.search` calls in a fixed order, raising on the
first pattern that finds no match. -/
def extract_info (text : List Char) : Except ParseError InvoiceInfo :=
  match searchInv text with
  | none => .error .invoiceNotFound
  | some inv =>
    match searchOrder text with
    | none => .error .orderNotFound
    | some ord =>
      match searchTotal text with
      | none => .error .totalNotFound
      | some tot =>
        .ok { invoice_number := String.mk (pyStrip (pyReplaceNl inv))
              order_number := String.mk (pyStrip ord)
              total_ttc := String.mk (pyStrip tot) }

example : extract_info "Facture n° 2024-01-FAC 00042 Commande ORD-9 Total TTC à régler 123,45 €".toList =
    .ok ⟨"2024-01-FAC 00042", "ORD-9", "123,45"⟩ := by decide

example : extract_info "Facture n° 2024-01-FAC 1 Commande A Total TTC €".toList =
    .ok ⟨"2024-01-FAC 1", "A", ""⟩ := by decide

example : extract_info "Commande ORD-9 Total TTC 5 €".toList = .error .invoiceNotFound := by decide

example : extract_info "Facture n° 2024-01-FAC 1 Total TTC 5 €".toList = .error .orderNotFound := by decide

/-! ### The strategy registry (src/invoiceParsers.py, lines 48-74) -/

/-- The concrete parser classes registered in `AVAILABLE_PARSERS`. -/
inductive Parser where
  | dougs
  | alternate
deriving DecidableEq, Repr

/-- `AVAILABLE_PARSERS` (src/invoiceParsers.py, lines 58-61): a dict
built from the list `[DougsInvoiceParser, AlternateInvoiceParser]`
keyed by each class's `name()` ("dougs", "alternate"), in insertion
order. -/
def AVAILABLE_PARSERS : List (String × Parser) :=
  [("dougs", Parser.dougs), ("alternate", Parser.alternate)]

/-- `AVAILABLE_PARSERS.get(key)`: dict lookup on the association
list. -/
def lookupParser (key : String) : Option Parser :=
  (AVAILABLE_PARSERS.find? (fun p => p.1 = key)).map (fun p => p.2)

/-- The `ValueError` of `getParser`: message
`f"Unknown parser: {name}. Available parsers: {available}"`. -/
inductive StrategyError where
  | unknown (name : String) (available : String)
deriving DecidableEq, Repr

/-- Python `str.lower()` (ASCII case mapping), applied character by
character. -/
def pyLower (s : String) : String :=
  String.mk (s.data.map Char.toLower)

/-- `get_parser` of src/invoiceParsers.py, lines 63-74 (renamed here).  `None` yields
the default `DougsInvoiceParser`; otherwise the registry is consulted
with `name.lower()` and an unknown name raises, listing
`", ".join(AVAILABLE_PARSERS.keys())`. -/
def getParser (name : Option String) : Except StrategyError Parser :=
  match name with
  | none => .ok .dougs
  | some n =>
    match lookupParser (pyLower n) with
    | some p => .ok p
    | none =>
      .error (.unknown n (String.intercalate ", " (AVAILABLE_PARSERS.map (fun p => p.1))))

example : getParser (some "DOUGS") = .ok .dougs := by decide
example : getParser (some "x") = .error (.unknown "x" "dougs, alternate") := by decide

/-! ### Recipient resolution (src/invoiceSender.py, lines 62-91) -/

/-- The character class `[a-zA-Z0-9._%+-]` of the local part of the
email pattern. -/
def isLocalChar (c : Char) : Bool :=
  c.isAlpha || c.isDigit || c = '.' || c = '_' || c = '%' || c = '+' || c = '-'

/-- The character class `[a-zA-Z0-9.-]` of the domain part of the
email pattern. -/
def isDomChar (c : Char) : Bool :=
  c.isAlpha || c.isDigit || c = '.' || c = '-'

/-- `validate_email` (src/invoiceSender.py, lines 62-65):
`re.match(r'^[a-zA-Z0-9._%+-]+@[a-zA-Z0-9.-]+\.[a-zA-Z]{2,}$', email)`.
Since `@` is in neither class, the match forces the unique split at the
`@`; the `\.` must be the last dot of the domain because everything
after it is alphabetic.  The model requires the `$` to be the true end
of the string (the callers pass stripped strings, so the
end-of-line/end-of-string distinction of `$` never arises). -/
def validate_email (e : List Char) : Bool :=
  let l := e.takeWhile isLocalChar
  match e.dropWhile isLocalChar with
  | '@' :: d =>
    if l.isEmpty then false
    else
      match (d.reverse.takeWhile (fun c => c ≠ '.')),
            (d.reverse.dropWhile (fun c => c ≠ '.')) with
      | t1 :: t2 :: ts, '.' :: q :: pRev =>
        (t1 :: t2 :: ts).all Char.isAlpha && (q :: pRev).all isDomChar
      | _, _ => false
  | _ => false

example : validate_email "a@b.com".toList = true := by decide
example : validate_email "bad-email".toList = false := by decide
example : validate_email "x@y.c".toList = false := by decide
example : validate_email "x@.com".toList = false := by decide

/-- Python `str.split(sep)` for a one-character separator: keeps empty
parts and always returns at least one part. -/
def splitOnChar (sep : Char) : List Char → List (List Char)
  | [] => [[]]
  | c :: cs =>
    if c = sep then [] :: splitOnChar sep cs
    else
      match splitOnChar sep cs with
      | [] => [[c]]
      | p :: ps => (c :: p) :: ps

example : splitOnChar ',' "a,,b".toList = ["a".toList, [], "b".toList] := by decide

/-- The inner loop of `get_recipients` (src/invoiceSender.py,
lines 81-84): strip each comma-separated candidate and append it to the
accumulator when it is non-empty and passes `validate_email`. -/
def collectEmails : List (List Char) → List (List Char) → List (List Char)
  | [], acc => acc
  | e :: es, acc =>
    let e' := pyStrip e
    if !e'.isEmpty && validate_email e' then collectEmails es (acc ++ [e'])
    else collectEmails es acc

/-- The line scan of `get_recipients` (src/invoiceSender.py,
lines 75-85): strip each line; skip it when empty or starting with
`#`; return the first stripped line that starts with
`order_number + ":"` (the loop `break`s there). -/
def scanLines (order : List Char) : List (List Char) → Option (List Char)
  | [] => none
  | l :: ls =>
    let s := pyStrip l
    if s.isEmpty then scanLines order ls
    else if s.take 1 = ['#'] then scanLines order ls
    else if (order ++ [':']).isPrefixOf s then some s
    else scanLines order ls

/-- `line.split(":", 1)[1]` followed by the candidate loop: everything
after the first colon of the matched line, split on commas, filtered by
`collectEmails`.  (The matched line contains a colon, so the `[1]`
indexing of the source never faults.) -/
def emailsOfLine (s : List Char) : List (List Char) :=
  collectEmails (splitOnChar ',' ((s.dropWhile (fun c => c ≠ ':')).tail)) []

/-- The `ValueError`s of `get_recipients` and the failures of
`create_email_message`:
`"Mapping file not found: ..."`, `"No valid recipients found for order ..."`,
the `KeyError` a `str.format` raises for an unknown placeholder, and
the re-raised `FileNotFoundError` for a missing attachment. -/
inductive SendError where
  | mappingFileNotFound
  | noRecipientsFound (order : List Char)
  | templateKeyError (key : String)
  | attachmentNotFound
deriving DecidableEq

/-- `get_recipients` (src/invoiceSender.py, lines 68-91).  The mapping
file is modelled as `Option (List (List Char))`: `none` when
`os.path.exists` fails, otherwise the file's lines (the leading
`strip()` of the loop makes the presence of trailing newlines in the
lines immaterial). -/
def get_recipients (order : List Char) (mapping : Option (List (List Char))) :
    Except SendError (List (List Char)) :=
  match mapping with
  | none => .error .mappingFileNotFound
  | some lines =>
    let recipients :=
      match scanLines order lines with
      | none => []
      | some s => emailsOfLine s
    if recipients.isEmpty then .error (.noRecipientsFound order)
    else .ok recipients

example : get_recipients "ORD-123".toList (some ["# c".toList, "".toList,
    "ORD-123: a@b.com, bad-email, c@d.org".toList]) =
    .ok ["a@b.com".toList, "c@d.org".toList] := by decide

example : get_recipients "ORD-1".toList (some ["ORD-1:a@b.com,a@b.com".toList]) =
    .ok ["a@b.com".toList, "a@b.com".toList] := by decide

/-! ### Message composition (src/invoiceSender.py, lines 94-120) -/

/-- A template string as consumed by Python `str.format`: a sequence of
literal pieces and `{name}` placeholders (the parsed form of the
template; `{{`/`}}` escapes land in literal pieces). -/
inductive TplPart where
  | lit (s : String)
  | ph (name : String)
deriving DecidableEq, Repr

/-- `template.format(**env)`: replace each placeholder by its value in
`env`; a placeholder absent from `env` raises `KeyError` (the leftmost
absent one, since `str.format` scans left to right). -/
def formatTpl (t : List TplPart) (env : List (String × String)) : Except SendError String :=
  match t with
  | [] => .ok ""
  | .lit s :: rest => (formatTpl rest env).map (fun x => s ++ x)
  | .ph n :: rest =>
    match env.find? (fun p => p.1 = n) with
    | none => .error (.templateKeyError n)
    | some p => (formatTpl rest env).map (fun x => p.2 ++ x)

/-- The keyword arguments of `subject_template.format(...)`
(src/invoiceSender.py, line 96): only `invoice_number`. -/
def subjectEnv (info : InvoiceInfo) : List (String × String) :=
  [("invoice_number", info.invoice_number)]

/-- The keyword arguments of `body_template.format(...)`
(src/invoiceSender.py, lines 97-101): `invoice_number`,
`order_number` and `total_ttc`. -/
def bodyEnv (info : InvoiceInfo) : List (String × String) :=
  [("invoice_number", info.invoice_number),
   ("order_number", info.order_number),
   ("total_ttc", info.total_ttc)]

/-- `os.path.basename`: the part of the path after its last `/`. -/
def basename (p : String) : String :=
  String.mk ((p.data.reverse.takeWhile (fun c => c ≠ '/')).reverse)

example : basename "a/b/inv.pdf" = "inv.pdf" := by decide

/-- The `MIMEApplication` attachment part: full file bytes, the
`filename` header, and the `_subtype` argument. -/
structure AttachmentPart where
  filename : String
  content : List Nat
  subtype : String
deriving DecidableEq, Repr

/-- The `MIMEMultipart` message assembled by `create_email_message`:
`From`, `To` (the comma-joined recipient list), `Subject`, the
plain-text body, and the attachment part. -/
structure EmailMessage where
  sender : String
  toAddr : String
  subject : String
  body : String
  attachment : AttachmentPart
deriving DecidableEq, Repr

/-- `create_email_message` (src/invoiceSender.py, lines 94-120).  The
subject template is formatted first, then the body template, then the
attachment is read; reading the PDF is modelled by the
`pdf_content : Option (List Nat)` argument (`none` when `open` raises
`FileNotFoundError`, which the source re-raises after logging). -/
def create_email_message (info : InvoiceInfo) (sender : String)
    (subject_template body_template : List TplPart) (recipients : List String)
    (pdf_file : String) (pdf_content : Option (List Nat)) :
    Except SendError EmailMessage :=
  match formatTpl subject_template (subjectEnv info) with
  | .error e => .error e
  | .ok subject =>
    match formatTpl body_template (bodyEnv info) with
    | .error e => .error e
    | .ok body =>
      match pdf_content with
      | none => .error .attachmentNotFound
      | some bytes =>
        .ok { sender := sender
              toAddr := String.intercalate ", " recipients
              subject := subject
              body := body
              attachment := { filename := basename pdf_file
                              content := bytes
                              subtype := "pdf" } }

example :
    create_email_message ⟨"I-1", "O-1", "9 €"⟩ "s@x.fr"
      [.lit "Facture ", .ph "invoice_number"]
      [.ph "order_number", .lit " / ", .ph "total_ttc"]
      ["a@b.com", "c@d.org"] "dir/inv.pdf" (some [1, 2, 3]) =
    .ok ⟨"s@x.fr", "a@b.com, c@d.org", "Facture I-1", "O-1 / 9 €",
         ⟨"inv.pdf", [1, 2, 3], "pdf"⟩⟩ := by decide

example :
    create_email_message ⟨"I-1", "O-1", "9"⟩ "s@x.fr" []
      [.ph "total_amount"] ["a@b.com"] "inv.pdf" (some []) =
    .error (.templateKeyError "total_amount") := by decide

/-- Helper for `specCollapseNewlineRuns`; the flag records whether the
previous character was a line break. -/
def collapseGo : List Char → Bool → List Char
  | [], _ => []
  | c :: rest, prevNl =>
    if c = '\n' then
      if prevNl then collapseGo rest true else ' ' :: collapseGo rest true
    else c :: collapseGo rest false

/-- Modelled from the spec's words (for comparison against the code's
`replace("\n", " ")`): collapse every maximal run of line breaks to a
single space character. -/
def specCollapseNewlineRuns (l : List Char) : List Char :=
  collapseGo l false

example : specCollapseNewlineRuns "a\n\nb".toList = "a b".toList := by decide
example : pyReplaceNl "a\n\nb".toList = "a  b".toList := by decide

/-! ## Claims -/

/-- C1: `parse` with the default strategy evaluates its three
extraction rules in the fixed order invoice number, then order number,
then total amount, and fails on the first missing field: when the
invoice pattern has no match the error is the invoice one regardless of
the others; when it matches but the order pattern does not, the error
is the order one; when both match and the total pattern does not, the
error is the total one. -/
theorem C1_failure_order (t : List Char) :
    (searchInv t = none → extract_info t = .error .invoiceNotFound) ∧
    (searchInv t ≠ none → searchOrder t = none →
      extract_info t = .error .orderNotFound) ∧
    (searchInv t ≠ none → searchOrder t ≠ none → searchTotal t = none →
      extract_info t = .error .totalNotFound) := by
  refine ⟨fun h1 => by simp [extract_info, h1], fun h1 h2 => ?_, fun h1 h2 h3 => ?_⟩
  · obtain ⟨g, hg⟩ := Option.ne_none_iff_exists'.mp h1
    simp [extract_info, hg, h2]
  · obtain ⟨g1, hg1⟩ := Option.ne_none_iff_exists'.mp h1
    obtain ⟨g2, hg2⟩ := Option.ne_none_iff_exists'.mp h2
    simp [extract_info, hg1, hg2, h3]

/-- Witness for C1: a text with an invoice number and an order number
but no total amount fails with the total-amount error. -/
theorem C1_witness :
    extract_info "Facture n° 2024-01-FAC 1 Commande A fin".toList =
      .error .totalNotFound :=
  (C1_failure_order _).2.2 (by decide) (by decide) (by decide)

/-- C6: `getParser None` returns the default dougs strategy (the
function is pure, so repeated calls agree); lookup is case-insensitive
(any name whose lowercase form is a registered key resolves exactly as
the lowercase name does); and an unregistered name fails with an error
carrying the fixed enumeration "dougs, alternate" of the registered
names, identical on every call. -/
theorem C6_registry (s : String) :
    getParser none = .ok Parser.dougs ∧
    (pyLower s = "dougs" → getParser (some s) = getParser (some "dougs")) ∧
    (pyLower s = "alternate" → getParser (some s) = getParser (some "alternate")) ∧
    (lookupParser (pyLower s) = none →
      getParser (some s) = .error (.unknown s "dougs, alternate")) := by
  refine ⟨rfl, fun h => ?_, fun h => ?_, fun h => ?_⟩
  · have h1 : lookupParser "dougs" = some Parser.dougs := by decide
    have h2 : pyLower "dougs" = "dougs" := by decide
    simp only [getParser, h, h1, h2]
  · have h1 : lookupParser "alternate" = some Parser.alternate := by decide
    have h2 : pyLower "alternate" = "alternate" := by decide
    simp only [getParser, h, h1, h2]
  · simp only [getParser, h]
    rfl

/-- Witness for C6: "DOUGS" resolves as "dougs" does, and an unknown
name is rejected with the full registry listing. -/
theorem C6_witness :
    getParser (some "DOUGS") = getParser (some "dougs") ∧
    getParser (some "nope") = .error (.unknown "nope" "dougs, alternate") :=
  ⟨(C6_registry "DOUGS").2.1 (by decide), (C6_registry "nope").2.2.2 (by decide)⟩

/-- C8: `get_recipients` fails with the mapping-file error when the
mapping source is unreadable; fails with the no-recipients error naming
the order number when no line matches or when the matching line yields
no valid address; and a successful result is never the empty list. -/
theorem C8_resolver_failures (order : List Char) (lines : List (List Char)) :
    get_recipients order none = .error .mappingFileNotFound ∧
    (scanLines order lines = none →
      get_recipients order (some lines) = .error (.noRecipientsFound order)) ∧
    (∀ s, scanLines order lines = some s → emailsOfLine s = [] →
      get_recipients order (some lines) = .error (.noRecipientsFound order)) ∧
    (∀ r, get_recipients order (some lines) = .ok r → r ≠ []) := by
  refine ⟨rfl, fun h => by simp [get_recipients, h], fun s h1 h2 => ?_, fun r hr => ?_⟩
  · simp [get_recipients, h1, h2]
  · intro hnil
    subst hnil
    rcases hscan : scanLines order lines with _ | s
    · simp [get_recipients, hscan] at hr
    · simp only [get_recipients, hscan] at hr
      split at hr
      · cases hr
      · rename_i hcond
        injection hr with h
        rw [h] at hcond
        simp at hcond

/-- Witness for C8: an order with no matching line, and an order whose
matching line has no valid address, both fail with the no-recipients
error. -/
theorem C8_witness :
    get_recipients "ORD-1".toList (some ["X:a@b.com".toList]) =
      .error (.noRecipientsFound "ORD-1".toList) ∧
    get_recipients "ORD-1".toList (some ["ORD-1: nope".toList]) =
      .error (.noRecipientsFound "ORD-1".toList) :=
  ⟨(C8_resolver_failures "ORD-1".toList ["X:a@b.com".toList]).2.1 (by decide),
   (C8_resolver_failures "ORD-1".toList ["ORD-1: nope".toList]).2.2.1
     "ORD-1: nope".toList (by decide) (by decide)⟩

theorem dropWhile_append_of_all {p : Char → Bool} (w l : List Char)
    (hw : ∀ c ∈ w, p c = true) : (w ++ l).dropWhile p = l.dropWhile p := by
  induction w with
  | nil => rfl
  | cons a w ih =>
    rw [List.cons_append, List.dropWhile_cons, hw a (by simp)]
    exact ih (fun c hc => hw c (by simp [hc]))

theorem pyStrip_ws_prefix (w l : List Char) (hw : ∀ c ∈ w, isPySpace c = true) :
    pyStrip (w ++ l) = pyStrip l := by
  unfold pyStrip
  rw [dropWhile_append_of_all w l hw]

theorem pyStrip_all_ws (w : List Char) (hw : ∀ c ∈ w, isPySpace c = true) :
    pyStrip w = [] := by
  have h := pyStrip_ws_prefix w [] hw
  simpa using h

theorem dropRightWhile_cons_of_not {p : Char → Bool} (a : Char) (l : List Char)
    (ha : p a = false) : ∃ t, dropRightWhile p (a :: l) = a :: t := by
  have hpre : dropRightWhile p (a :: l) <+: (a :: l) := by
    have hsuf : (a :: l).reverse.dropWhile p <:+ (a :: l).reverse :=
      List.dropWhile_suffix p
    have := List.reverse_prefix.mpr hsuf
    rwa [List.reverse_reverse] at this
  have hne : dropRightWhile p (a :: l) ≠ [] := by
    intro h
    unfold dropRightWhile at h
    rw [List.reverse_eq_nil_iff, List.dropWhile_eq_nil_iff] at h
    have := h a (by simp)
    rw [ha] at this
    cases this
  obtain ⟨t2, ht2⟩ := hpre
  rcases hd : dropRightWhile p (a :: l) with _ | ⟨b, bs⟩
  · exact absurd hd hne
  · refine ⟨bs, ?_⟩
    rw [hd] at ht2
    injection ht2 with h1 _
    rw [h1]

theorem pyStrip_cons_of_not_space (a : Char) (l : List Char)
    (ha : isPySpace a = false) : ∃ t, pyStrip (a :: l) = a :: t := by
  unfold pyStrip
  rw [List.dropWhile_cons, ha]
  exact dropRightWhile_cons_of_not a l ha

/-- C7: `get_recipients` scans the mapping lines in order: a blank line
is skipped, a comment line is skipped, a non-matching line is skipped,
and the first line whose stripped form starts with the order number
followed by ':' determines the whole result — the lines after it are
never consulted. -/
theorem C7_first_match_wins (order l : List Char) (ls : List (List Char)) :
    (pyStrip l = [] →
      get_recipients order (some (l :: ls)) = get_recipients order (some ls)) ∧
    ((pyStrip l).take 1 = ['#'] →
      get_recipients order (some (l :: ls)) = get_recipients order (some ls)) ∧
    (pyStrip l ≠ [] → (pyStrip l).take 1 ≠ ['#'] →
      (order ++ [':']).isPrefixOf (pyStrip l) = false →
      get_recipients order (some (l :: ls)) = get_recipients order (some ls)) ∧
    (pyStrip l ≠ [] → (pyStrip l).take 1 ≠ ['#'] →
      (order ++ [':']).isPrefixOf (pyStrip l) = true →
      ∀ ls', get_recipients order (some (l :: ls)) =
        get_recipients order (some (l :: ls'))) := by
  refine ⟨fun h => ?_, fun h => ?_, fun h1 h2 h3 => ?_, fun h1 h2 h3 ls' => ?_⟩
  · simp [get_recipients, scanLines, h]
  · have hne : (pyStrip l).isEmpty = false := by
      rcases he : pyStrip l with _ | _
      · rw [he] at h; simp at h
      · rfl
    simp [get_recipients, scanLines, hne, h]
  · have hne : (pyStrip l).isEmpty = false := by
      rcases he : pyStrip l with _ | _
      · exact absurd he h1
      · rfl
    simp [get_recipients, scanLines, hne, h2, h3]
  · have hne : (pyStrip l).isEmpty = false := by
      rcases he : pyStrip l with _ | _
      · exact absurd he h1
      · rfl
    simp [get_recipients, scanLines, hne, h2, h3]

/-- Witness for C7: with two lines matching the same order key, the
result is computed from the first line only (the second line is
shadowed). -/
theorem C7_witness :
    get_recipients "O".toList
        (some ["O:a@b.com".toList, "O:x@y.org".toList]) =
      get_recipients "O".toList (some ["O:a@b.com".toList]) :=
  (C7_first_match_wins "O".toList "O:a@b.com".toList ["O:x@y.org".toList]).2.2.2
    (by decide) (by decide) (by decide) []

/-- C10: every mapping line is stripped before any classification or
matching: prepending whitespace to a line never changes the result of
`get_recipients`, a whitespace-only line is skipped as blank, and a
comment marker preceded by whitespace still causes the line to be
skipped. -/
theorem C10_lines_stripped (order w l : List Char) (ls : List (List Char))
    (hw : ∀ c ∈ w, isPySpace c = true) :
    (get_recipients order (some ((w ++ l) :: ls)) =
      get_recipients order (some (l :: ls))) ∧
    (get_recipients order (some (w :: ls)) = get_recipients order (some ls)) ∧
    (get_recipients order (some ((w ++ '#' :: l) :: ls)) =
      get_recipients order (some ls)) := by
  refine ⟨?_, ?_, ?_⟩
  · simp [get_recipients, scanLines, pyStrip_ws_prefix w l hw]
  · simp [get_recipients, scanLines, pyStrip_all_ws w hw]
  · obtain ⟨t, ht⟩ := pyStrip_cons_of_not_space '#' l (by decide)
    simp [get_recipients, scanLines, pyStrip_ws_prefix w ('#' :: l) hw, ht]

/-- Witness for C10: a line with leading whitespace before the key still
matches; an indented comment and a whitespace-only line are skipped. -/
theorem C10_witness :
    (get_recipients "O".toList (some [" \t O:a@b.com".toList]) =
      get_recipients "O".toList (some ["O:a@b.com".toList])) ∧
    (get_recipients "O".toList (some [" \t ".toList, "O:a@b.com".toList]) =
      get_recipients "O".toList (some ["O:a@b.com".toList])) ∧
    (get_recipients "O".toList (some [" \t # note".toList, "O:a@b.com".toList]) =
      get_recipients "O".toList (some ["O:a@b.com".toList])) :=
  ⟨(C10_lines_stripped "O".toList " \t ".toList "O:a@b.com".toList [] (by decide)).1,
   (C10_lines_stripped "O".toList " \t ".toList [] ["O:a@b.com".toList] (by decide)).2.1,
   (C10_lines_stripped "O".toList " \t ".toList " note".toList ["O:a@b.com".toList]
     (by decide)).2.2⟩

theorem collectEmails_eq_filter (parts acc : List (List Char)) :
    collectEmails parts acc =
      acc ++ (parts.map pyStrip).filter (fun e => !e.isEmpty && validate_email e) := by
  induction parts generalizing acc with
  | nil => simp [collectEmails]
  | cons e es ih =>
    unfold collectEmails
    rcases hc : (!(pyStrip e).isEmpty && validate_email (pyStrip e)) with _ | _
    · rw [if_neg (by simp [hc]), ih]
      simp [List.filter_cons, hc]
    · rw [if_pos (by simp [hc]), ih]
      simp [List.filter_cons, hc]

/-- C2 as amended: on the first matching line, `get_recipients` splits
the part after the first colon on commas, strips each candidate, and
keeps exactly the non-empty candidates passing `validate_email`, in
source order — without removing duplicates; the result is returned
unless it is empty. -/
theorem C2_amended (order s : List Char) (lines : List (List Char))
    (h : scanLines order lines = some s) :
    get_recipients order (some lines) =
      (if ((splitOnChar ',' ((s.dropWhile (fun c => c ≠ ':')).tail)).map pyStrip).filter
            (fun e => !e.isEmpty && validate_email e) = [] then
        .error (.noRecipientsFound order)
      else
        .ok (((splitOnChar ',' ((s.dropWhile (fun c => c ≠ ':')).tail)).map pyStrip).filter
              (fun e => !e.isEmpty && validate_email e))) := by
  simp only [get_recipients, emailsOfLine, h, collectEmails_eq_filter]
  simp [List.isEmpty_iff]

/-- Witness for C2 (amended): the spec's own example line yields exactly
the two valid addresses, order-preserved, the malformed one dropped. -/
theorem C2_witness :
    get_recipients "ORD-123".toList
        (some ["ORD-123: a@b.com, bad-email, c@d.org".toList]) =
      .ok ["a@b.com".toList, "c@d.org".toList] := by
  rw [C2_amended "ORD-123".toList "ORD-123: a@b.com, bad-email, c@d.org".toList _ (by decide)]
  decide

/-- C2 counterexample: the claim's de-duplication clause is false — a
matching line that lists the same address twice produces a recipient
list containing that address twice. -/
theorem C2_counterexample :
    get_recipients "ORD-1".toList (some ["ORD-1:a@b.com,a@b.com".toList]) =
      .ok ["a@b.com".toList, "a@b.com".toList] ∧
    ¬ (["a@b.com".toList, "a@b.com".toList] : List (List Char)).Nodup := by
  exact ⟨by decide, by decide⟩

theorem matchInvAt_shape {cs g : List Char} (h : matchInvAt cs = some g) :
    ∃ a gs, g = a :: gs ∧ a.isDigit = true := by
  unfold matchInvAt at h
  split at h
  · cases h
  · split at h
    · split at h
      · simp only [] at h
        split at h
        · cases h
        · rename_i hcond _
          injection h with h
          simp only [Bool.and_eq_true] at hcond
          exact ⟨_, _, h.symm, hcond.1.1.1.1.1.1.1.1.1.1⟩
      · cases h
    · cases h

theorem searchInv_shape : ∀ {t g : List Char}, searchInv t = some g →
    ∃ a gs, g = a :: gs ∧ a.isDigit = true := by
  intro t
  induction t with
  | nil =>
    intro g h
    exact matchInvAt_shape h
  | cons c cs ih =>
    intro g h
    unfold searchInv at h
    rcases hm : matchInvAt (c :: cs) with _ | g'
    · rw [hm] at h
      exact ih h
    · rw [hm] at h
      injection h with h
      rw [← h]
      exact matchInvAt_shape hm

theorem matchOrderAt_shape {cs g : List Char} (h : matchOrderAt cs = some g) :
    g ≠ [] ∧ ∀ c ∈ g, isOrderChar c = true := by
  unfold matchOrderAt at h
  split at h
  · cases h
  · split at h
    · cases h
    · simp only [] at h
      split at h
      · cases h
      · rename_i hne
        injection h with h
        subst h
        refine ⟨fun hnil => by rw [hnil] at hne; simp at hne, ?_⟩
        intro c hc
        exact List.mem_takeWhile_imp hc

theorem searchOrder_shape : ∀ {t g : List Char}, searchOrder t = some g →
    g ≠ [] ∧ ∀ c ∈ g, isOrderChar c = true := by
  intro t
  induction t with
  | nil =>
    intro g h
    exact matchOrderAt_shape h
  | cons c cs ih =>
    intro g h
    unfold searchOrder at h
    rcases hm : matchOrderAt (c :: cs) with _ | g'
    · rw [hm] at h
      exact ih h
    · rw [hm] at h
      injection h with h
      rw [← h]
      exact matchOrderAt_shape hm

theorem not_space_of_digit {c : Char} (h : c.isDigit = true) : isPySpace c = false := by
  rcases hx : isPySpace c with _ | _
  · rfl
  · exfalso
    unfold isPySpace at hx
    simp only [Bool.or_eq_true, decide_eq_true_eq] at hx
    rcases hx with ((((h1 | h1) | h1) | h1) | h1) | h1 <;>
      rw [h1] at h <;> cases h

theorem not_space_of_orderChar {c : Char} (h : isOrderChar c = true) :
    isPySpace c = false := by
  rcases hx : isPySpace c with _ | _
  · rfl
  · exfalso
    unfold isPySpace at hx
    simp only [Bool.or_eq_true, decide_eq_true_eq] at hx
    rcases hx with ((((h1 | h1) | h1) | h1) | h1) | h1 <;>
      subst h1 <;> cases h

theorem pyStrip_ne_nil_of_mem {l : List Char} {c : Char} (hc : c ∈ l)
    (hns : isPySpace c = false) : pyStrip l ≠ [] := by
  intro h
  unfold pyStrip dropRightWhile at h
  rw [List.reverse_eq_nil_iff, List.dropWhile_eq_nil_iff] at h
  have hmem : c ∈ l.dropWhile isPySpace := by
    have hl := List.takeWhile_append_dropWhile (p := isPySpace) (l := l)
    rcases List.mem_append.mp (by rw [hl]; exact hc) with h1 | h1
    · have := List.mem_takeWhile_imp h1
      rw [hns] at this
      cases this
    · exact h1
  have := h c (List.mem_reverse.mpr hmem)
  rw [hns] at this
  cases this

/-- C3 counterexample: the non-emptiness invariant fails for the total
field — on a text where the amount pattern captures only whitespace,
extraction succeeds with an empty `total_ttc`. -/
theorem C3_counterexample :
    extract_info "Facture n° 2024-01-FAC 1 Commande A Total TTC €".toList =
      .ok ⟨"2024-01-FAC 1", "A", ""⟩ := by decide

/-- C3 as amended: on every successful extraction the invoice-number
and order-number fields are non-empty; the total field, however, can be
empty (when the captured amount span is all whitespace), so the
invariant holds only for the first two fields. -/
theorem C3_amended (t : List Char) (r : InvoiceInfo)
    (h : extract_info t = .ok r) :
    r.invoice_number ≠ "" ∧ r.order_number ≠ "" := by
  unfold extract_info at h
  rcases hI : searchInv t with _ | inv
  · rw [hI] at h; cases h
  · rw [hI] at h
    rcases hO : searchOrder t with _ | ord
    · rw [hO] at h; cases h
    · rw [hO] at h
      rcases hT : searchTotal t with _ | tot
      · rw [hT] at h; cases h
      · rw [hT] at h
        injection h with h
        subst h
        constructor
        · obtain ⟨a, gs, hg, hd⟩ := searchInv_shape hI
          subst hg
          intro heq
          have hdata : pyStrip (pyReplaceNl (a :: gs)) = [] := by
            have := congrArg String.data heq
            simpa using this
          have hna : a ≠ '\n' := by
            intro h'
            rw [h'] at hd
            cases hd
          have hhead : pyReplaceNl (a :: gs) =
              a :: gs.map (fun c => if c = '\n' then ' ' else c) := by
            simp [pyReplaceNl, hna]
          rw [hhead] at hdata
          exact pyStrip_ne_nil_of_mem (List.mem_cons_self a _)
            (not_space_of_digit hd) hdata
        · obtain ⟨hne, hall⟩ := searchOrder_shape hO
          rcases hord : ord with _ | ⟨b, bs⟩
          · exact absurd hord hne
          · subst hord
            intro heq
            have hdata : pyStrip (b :: bs) = [] := by
              have := congrArg String.data heq
              simpa using this
            exact pyStrip_ne_nil_of_mem (List.mem_cons_self b _)
              (not_space_of_orderChar (hall b (List.mem_cons_self b _))) hdata

/-- Witness for C3 (amended): the fully-labelled sample text parses to a
record whose invoice and order fields are non-empty. -/
theorem C3_witness :
    (InvoiceInfo.mk "2024-01-FAC 00042" "ORD-9" "123,45").invoice_number ≠ "" ∧
    (InvoiceInfo.mk "2024-01-FAC 00042" "ORD-9" "123,45").order_number ≠ "" :=
  C3_amended
    "Facture n° 2024-01-FAC 00042 Commande ORD-9 Total TTC à régler 123,45 €".toList
    _ (by decide)

/-- C5 counterexample: the claim's run-collapsing is false — when the
captured invoice span contains a run of two line breaks, the code turns
it into two spaces, while collapsing the maximal run to a single space
would give one space. -/
theorem C5_counterexample :
    searchInv "Facture n° 2024-01-FAC\n\n42 Commande ORD-1 Total TTC 5 €".toList =
      some "2024-01-FAC\n\n42".toList ∧
    (extract_info "Facture n° 2024-01-FAC\n\n42 Commande ORD-1 Total TTC 5 €".toList).map
        (fun r => r.invoice_number) = .ok "2024-01-FAC  42" ∧
    String.mk (pyStrip (specCollapseNewlineRuns "2024-01-FAC\n\n42".toList)) =
      "2024-01-FAC 42" ∧
    ("2024-01-FAC  42" : String) ≠ "2024-01-FAC 42" := by decide

/-- C5 as amended: the invoice_number field of every returned record is
the captured span with each individual line break replaced by one space
(so a run of k line breaks becomes k spaces), trimmed of leading and
trailing whitespace. -/
theorem C5_amended (t : List Char) (r : InvoiceInfo)
    (h : extract_info t = .ok r) :
    ∃ g, searchInv t = some g ∧
      r.invoice_number =
        String.mk (pyStrip (g.map (fun c => if c = '\n' then ' ' else c))) := by
  unfold extract_info at h
  rcases hI : searchInv t with _ | inv
  · rw [hI] at h; cases h
  · rw [hI] at h
    rcases hO : searchOrder t with _ | ord
    · rw [hO] at h; cases h
    · rw [hO] at h
      rcases hT : searchTotal t with _ | tot
      · rw [hT] at h; cases h
      · rw [hT] at h
        injection h with h
        subst h
        exact ⟨inv, rfl, rfl⟩

/-- Witness for C5 (amended): the record extracted from the text whose
invoice span contains "\n\n" carries the replace-then-trim value. -/
theorem C5_witness :
    ∃ g, searchInv "Facture n° 2024-01-FAC\n\n42 Commande ORD-1 Total TTC 5 €".toList =
        some g ∧
      (InvoiceInfo.mk "2024-01-FAC  42" "ORD-1" "5").invoice_number =
        String.mk (pyStrip (g.map (fun c => if c = '\n' then ' ' else c))) :=
  C5_amended "Facture n° 2024-01-FAC\n\n42 Commande ORD-1 Total TTC 5 €".toList
    _ (by decide)

theorem formatTpl_error_shape : ∀ {t : List TplPart} {env : List (String × String)}
    {e : SendError}, formatTpl t env = .error e → ∃ k, e = .templateKeyError k := by
  intro t
  induction t with
  | nil =>
    intro env e h
    cases h
  | cons part rest ih =>
    intro env e h
    cases part with
    | lit s =>
      unfold formatTpl at h
      rcases hr : formatTpl rest env with e' | x
      · rw [hr] at h
        injection h with h
        rw [← h]
        exact ih hr
      · rw [hr] at h
        cases h
    | ph n =>
      unfold formatTpl at h
      rcases hf : env.find? (fun p => p.1 = n) with _ | p
      · rw [hf] at h
        injection h with h
        exact ⟨n, h.symm⟩
      · rw [hf] at h
        rcases hr : formatTpl rest env with e' | x
        · rw [hr] at h
          injection h with h
          rw [← h]
          exact ih hr
        · rw [hr] at h
          cases h

theorem formatTpl_ok_iff : ∀ (t : List TplPart) (env : List (String × String)),
    (∃ s, formatTpl t env = .ok s) ↔
      ∀ n, TplPart.ph n ∈ t → ((env.find? (fun p => p.1 = n)).isSome = true) := by
  intro t env
  induction t with
  | nil =>
    simp [formatTpl]
  | cons part rest ih =>
    cases part with
    | lit s =>
      constructor
      · rintro ⟨x, hx⟩ n hn
        unfold formatTpl at hx
        rcases hr : formatTpl rest env with e | y
        · rw [hr] at hx; cases hx
        · exact ih.mp ⟨y, hr⟩ n (by simpa using hn)
      · intro hall
        obtain ⟨y, hy⟩ := ih.mpr (fun n hn => hall n (by simp [hn]))
        exact ⟨s ++ y, by simp [formatTpl, hy, Except.map]⟩
    | ph m =>
      constructor
      · rintro ⟨x, hx⟩ n hn
        unfold formatTpl at hx
        rcases hf : env.find? (fun p => p.1 = m) with _ | p
        · rw [hf] at hx; cases hx
        · rw [hf] at hx
          rcases List.mem_cons.mp hn with h1 | h1
          · injection h1 with h1
            rw [h1, hf]
            rfl
          · rcases hr : formatTpl rest env with e | y
            · rw [hr] at hx; cases hx
            · exact ih.mp ⟨y, hr⟩ n h1
      · intro hall
        have hm := hall m (by simp)
        rcases hf : env.find? (fun p => p.1 = m) with _ | p
        · rw [hf] at hm; cases hm
        · obtain ⟨y, hy⟩ := ih.mpr (fun n hn => hall n (by simp [hn]))
          exact ⟨p.2 ++ y, by simp [formatTpl, hf, hy, Except.map]⟩

theorem find?_isSome_subjectEnv (info : InvoiceInfo) (n : String) :
    ((subjectEnv info).find? (fun p => p.1 = n)).isSome = true ↔
      n = "invoice_number" := by
  rw [List.find?_isSome]
  constructor
  · rintro ⟨x, hx, hp⟩
    simp only [subjectEnv, List.mem_singleton] at hx
    subst hx
    simp only [decide_eq_true_eq] at hp
    exact hp.symm
  · rintro rfl
    exact ⟨("invoice_number", info.invoice_number), by simp [subjectEnv], by simp⟩

theorem find?_isSome_bodyEnv (info : InvoiceInfo) (n : String) :
    ((bodyEnv info).find? (fun p => p.1 = n)).isSome = true ↔
      n = "invoice_number" ∨ n = "order_number" ∨ n = "total_ttc" := by
  rw [List.find?_isSome]
  constructor
  · rintro ⟨x, hx, hp⟩
    simp only [decide_eq_true_eq] at hp
    simp only [bodyEnv, List.mem_cons, List.mem_singleton, List.not_mem_nil] at hx
    rcases hx with hx | hx | hx | hx
    · exact Or.inl (by rw [hx] at hp; exact hp.symm)
    · exact Or.inr (Or.inl (by rw [hx] at hp; exact hp.symm))
    · exact Or.inr (Or.inr (by rw [hx] at hp; exact hp.symm))
    · cases hx
  · rintro (rfl | rfl | rfl)
    · exact ⟨("invoice_number", info.invoice_number), by simp [bodyEnv], by simp⟩
    · exact ⟨("order_number", info.order_number), by simp [bodyEnv], by simp⟩
    · exact ⟨("total_ttc", info.total_ttc), by simp [bodyEnv], by simp⟩

/-- C4 counterexample: the claimed placeholder set is false — the body
placeholder `total_amount`, although inside the claim's set, makes
composition fail with a key error (the body substitution actually
carries the key `total_ttc`). -/
theorem C4_counterexample :
    create_email_message ⟨"I-1", "O-1", "9"⟩ "s@x.fr" []
        [TplPart.ph "invoice_number", TplPart.ph "order_number",
         TplPart.ph "total_amount"] ["a@b.com"] "inv.pdf" (some []) =
      .error (.templateKeyError "total_amount") := by decide

/-- C4 as amended: the subject template is substituted with exactly the
placeholder `invoice_number` and the body template with exactly the
placeholders `invoice_number`, `order_number` and `total_ttc`; every
template whose placeholders stay inside its respective set composes
successfully (given a readable attachment), and any placeholder outside
its set makes composition fail with a key error and produce no
message. -/
theorem C4_amended (info : InvoiceInfo) (sender : String)
    (st bt : List TplPart) (recipients : List String) (path : String) :
    ((∀ n, TplPart.ph n ∈ st → n = "invoice_number") →
     (∀ n, TplPart.ph n ∈ bt →
        n = "invoice_number" ∨ n = "order_number" ∨ n = "total_ttc") →
     ∀ bytes, ∃ m,
       create_email_message info sender st bt recipients path (some bytes) = .ok m) ∧
    ((∃ n, (TplPart.ph n ∈ st ∧ n ≠ "invoice_number") ∨
           (TplPart.ph n ∈ bt ∧
             ¬(n = "invoice_number" ∨ n = "order_number" ∨ n = "total_ttc"))) →
     ∀ content, ∃ k,
       create_email_message info sender st bt recipients path content =
         .error (.templateKeyError k)) := by
  constructor
  · intro hst hbt bytes
    obtain ⟨s, hs⟩ := (formatTpl_ok_iff st (subjectEnv info)).mpr
      (fun n hn => (find?_isSome_subjectEnv info n).mpr (hst n hn))
    obtain ⟨b, hb⟩ := (formatTpl_ok_iff bt (bodyEnv info)).mpr
      (fun n hn => (find?_isSome_bodyEnv info n).mpr (hbt n hn))
    refine ⟨⟨sender, String.intercalate ", " recipients, s, b,
      ⟨basename path, bytes, "pdf"⟩⟩, ?_⟩
    unfold create_email_message
    rw [hs, hb]
  · rintro ⟨n, hbad⟩ content
    rcases hse : formatTpl st (subjectEnv info) with e | s
    · obtain ⟨k, hk⟩ := formatTpl_error_shape hse
      refine ⟨k, ?_⟩
      unfold create_email_message
      rw [hse, hk]
    · rcases hbe : formatTpl bt (bodyEnv info) with e | b
      · obtain ⟨k, hk⟩ := formatTpl_error_shape hbe
        refine ⟨k, ?_⟩
        unfold create_email_message
        rw [hse, hbe, hk]
      · exfalso
        rcases hbad with ⟨hmem, hne⟩ | ⟨hmem, hne⟩
        · exact hne ((find?_isSome_subjectEnv info n).mp
            ((formatTpl_ok_iff st (subjectEnv info)).mp ⟨s, hse⟩ n hmem))
        · exact hne ((find?_isSome_bodyEnv info n).mp
            ((formatTpl_ok_iff bt (bodyEnv info)).mp ⟨b, hbe⟩ n hmem))

/-- Witness for C4 (amended): templates using exactly the supported
placeholders compose into a message. -/
theorem C4_witness :
    ∃ m, create_email_message ⟨"I", "O", "T"⟩ "s" [TplPart.ph "invoice_number"]
        [TplPart.lit "n ", TplPart.ph "invoice_number", TplPart.ph "order_number",
         TplPart.ph "total_ttc"] ["a@b.com"] "inv.pdf" (some [7]) = .ok m :=
  (C4_amended ⟨"I", "O", "T"⟩ "s" [TplPart.ph "invoice_number"]
      [TplPart.lit "n ", TplPart.ph "invoice_number", TplPart.ph "order_number",
       TplPart.ph "total_ttc"] ["a@b.com"] "inv.pdf").1
    (by intro n hn; simp at hn; exact hn)
    (by
      intro n hn
      simp at hn
      rcases hn with h | h | h
      · exact Or.inl h
      · exact Or.inr (Or.inl h)
      · exact Or.inr (Or.inr h))
    [7]

/-- C9: with well-formed templates, a missing attachment file makes
composition fail with the attachment error and no message; with a
readable attachment, composition succeeds and embeds the full content
with the path's final segment as filename and the fixed subtype
"pdf". -/
theorem C9_attachment (info : InvoiceInfo) (sender : String)
    (st bt : List TplPart) (recipients : List String) (path : String)
    (hs : ∃ s, formatTpl st (subjectEnv info) = .ok s)
    (hb : ∃ b, formatTpl bt (bodyEnv info) = .ok b) :
    create_email_message info sender st bt recipients path none =
      .error .attachmentNotFound ∧
    ∀ bytes, ∃ m,
      create_email_message info sender st bt recipients path (some bytes) = .ok m ∧
      m.attachment = ⟨basename path, bytes, "pdf"⟩ := by
  obtain ⟨s, hs⟩ := hs
  obtain ⟨b, hb⟩ := hb
  constructor
  · unfold create_email_message
    rw [hs, hb]
  · intro bytes
    refine ⟨⟨sender, String.intercalate ", " recipients, s, b,
      ⟨basename path, bytes, "pdf"⟩⟩, ?_, rfl⟩
    unfold create_email_message
    rw [hs, hb]

/-- Witness for C9: a concrete composition with a missing attachment
fails with the attachment error, and with a readable one the message
carries the file's basename, content and the "pdf" subtype. -/
theorem C9_witness :
    create_email_message ⟨"I", "O", "T"⟩ "s" [] [] [] "a/b.pdf" none =
      .error .attachmentNotFound ∧
    ∃ m, create_email_message ⟨"I", "O", "T"⟩ "s" [] [] [] "a/b.pdf" (some [1]) =
        .ok m ∧ m.attachment = ⟨"b.pdf", [1], "pdf"⟩ := by
  have h := C9_attachment ⟨"I", "O", "T"⟩ "s" [] [] [] "a/b.pdf"
    ⟨"", by decide⟩ ⟨"", by decide⟩
  refine ⟨h.1, ?_⟩
  obtain ⟨m, hm1, hm2⟩ := h.2 [1]
  refine ⟨m, hm1, ?_⟩
  rw [hm2]
  decide

end InvoiceSender
